import Mathlib

/-!
Verification development for the HSM key-log verifier and access key resolver
of the better-auth example services. The definitions below are shallow
embeddings of the Rust sources; external library calls such as the actual
Blake3 hash, the P-256 curve operations, serde parsing and RFC-3339 parsing
are abstracted as function parameters (oracles), while all control flow,
string handling, cache manipulation and error selection is translated
directly from the source.
-/

namespace BetterAuth

/-! ## Association lists modelling Rust HashMap (insert replaces) -/

def alookup {α : Type} : List (String × α) → String → Option α
  | [], _ => none
  | (k, v) :: r, q => if k = q then some v else alookup r q

def ainsert {α : Type} : List (String × α) → String → α → List (String × α)
  | [], k, v => [(k, v)]
  | (k', v') :: r, k, v =>
      if k' = k then (k, v) :: r else (k', v') :: ainsert r k v

theorem alookup_ainsert_self {α : Type} (m : List (String × α)) (k : String) (v : α) :
    alookup (ainsert m k v) k = some v := by
  induction m with
  | nil => simp [ainsert, alookup]
  | cons h r ih =>
      by_cases hk : h.1 = k
      · simp [ainsert, hk, alookup]
      · simp [ainsert, hk, alookup, ih]

theorem alookup_ainsert_ne {α : Type} (m : List (String × α)) (k k' : String) (v : α)
    (h : k ≠ k') : alookup (ainsert m k v) k' = alookup m k' := by
  induction m with
  | nil => simp [ainsert, alookup, h]
  | cons hd r ih =>
      by_cases hk : hd.1 = k
      · simp [ainsert, hk, alookup, h]
      · simp only [ainsert, hk, if_false]
        by_cases hq : hd.1 = k'
        · simp [alookup, hq]
        · simp [alookup, hq, ih]

/-! ## base64url decoding (base64 crate, URL_SAFE engine, canonical padding) -/

def b64Val (c : Char) : Option Nat :=
  if 'A' ≤ c ∧ c ≤ 'Z' then some (c.toNat - 65)
  else if 'a' ≤ c ∧ c ≤ 'z' then some (c.toNat - 97 + 26)
  else if '0' ≤ c ∧ c ≤ '9' then some (c.toNat - 48 + 52)
  else if c = '-' then some 62
  else if c = '_' then some 63
  else none

/-- Decode the final base64 quantum, allowing canonical padding forms. -/
def b64LastChunk (a b c d : Char) : Option (List Nat) :=
  match b64Val a, b64Val b with
  | some va, some vb =>
    if c = '=' ∧ d = '=' then
      if vb % 16 = 0 then some [va * 4 + vb / 16] else none
    else
      match b64Val c with
      | some vc =>
        if d = '=' then
          if vc % 4 = 0 then some [va * 4 + vb / 16, (vb % 16) * 16 + vc / 4] else none
        else
          match b64Val d with
          | some vd =>
              some [va * 4 + vb / 16, (vb % 16) * 16 + vc / 4, (vc % 4) * 64 + vd]
          | none => none
      | none => none
  | _, _ => none

/-- Decode an interior base64 quantum (no padding allowed). -/
def b64FullChunk (a b c d : Char) : Option (List Nat) :=
  match b64Val a, b64Val b, b64Val c, b64Val d with
  | some va, some vb, some vc, some vd =>
      some [va * 4 + vb / 16, (vb % 16) * 16 + vc / 4, (vc % 4) * 64 + vd]
  | _, _, _, _ => none

def b64DecodeChars : List Char → Option (List Nat)
  | [] => some []
  | a :: b :: c :: d :: rest =>
      if rest.isEmpty then b64LastChunk a b c d
      else
        match b64FullChunk a b c d, b64DecodeChars rest with
        | some bs, some more => some (bs ++ more)
        | _, _ => none
  | _ => none

def b64urlDecode (s : String) : Option (List Nat) :=
  b64DecodeChars s.data

/-! ## Secp256r1VerifierStatic::verify
(basic/services/app-rs/src/implementation/storage/redis_verification_key_store.rs).
The P-256 library calls (SEC1 import, fixed-width signature parse, curve
verification) are oracles; CESR decoding, the 3-byte / 2-byte slicing and the
error selection follow the source. Rust slice indexing `v[3..]` panics when
the slice is shorter than 3, which the embedding records as a distinct
outcome. -/

inductive SigError
  | decodePublicKey
  | importPublicKey
  | decodeSignature
  | parseSignature
  | invalidSignature
  deriving DecidableEq, Repr

inductive SigOutcome
  | ok
  | err (e : SigError)
  | panicked
  deriving DecidableEq, Repr

def secpVerify (importOk : List Nat → Bool) (parseSigOk : List Nat → Bool)
    (ecdsaOk : List Nat → String → List Nat → Bool)
    (message signature publicKey : String) : SigOutcome :=
  match b64urlDecode publicKey with
  | none => .err .decodePublicKey
  | some pkBytes =>
    if pkBytes.length < 3 then .panicked
    else
      let pk := pkBytes.drop 3
      if importOk pk = false then .err .importPublicKey
      else
        match b64urlDecode signature with
        | none => .err .decodeSignature
        | some sigBytes =>
          if sigBytes.length < 2 then .panicked
          else
            let sg := sigBytes.drop 2
            if parseSigOk sg = false then .err .parseSignature
            else if ecdsaOk pk message sg then .ok else .err .invalidSignature

/-! ## ServerTimeLockStore::reserve
(garden-k8s/services/app-rs/src/implementation/storage/server_time_lock_store.rs).
Time is an integer instant; the two SystemTime::now() calls in the source are
modelled by the single parameter `now`. -/

def reserve (nonces : List (String × Int)) (value : String) (now lifetime : Int) :
    Except String Unit × List (String × Int) :=
  match alookup nonces value with
  | some validAt =>
      if now < validAt then (.error "value reserved too recently", nonces)
      else (.ok (), ainsert nonces value (now + lifetime))
  | none => (.ok (), ainsert nonces value (now + lifetime))

/-! ## Rust str::replace (all non-overlapping occurrences, left to right) -/

def replaceFuel (pat rep : List Char) : Nat → List Char → List Char
  | _, [] => []
  | 0, s => s
  | f + 1, c :: rest =>
      if pat ≠ [] ∧ pat.isPrefixOf (c :: rest) then
        rep ++ replaceFuel pat rep f ((c :: rest).drop pat.length)
      else c :: replaceFuel pat rep f rest

def rustReplace (s pat rep : String) : String :=
  if pat.data.isEmpty then ⟨rep.data ++ s.data.flatMap (fun c => c :: rep.data)⟩
  else ⟨replaceFuel pat.data rep.data s.data.length s.data⟩

/-! ## Key-log verifier data model
(garden-k8s/services/app-rs/src/implementation/storage/key_verifier.rs).
The Rust field `prefix` is called `pfx` here because `prefix` is a reserved
word in Lean. -/

structure LogEntry where
  id : String
  pfx : String
  previous : Option String
  sequenceNumber : Int
  createdAt : String
  taintPrevious : Option Bool
  purpose : String
  publicKey : String
  rotationHash : String
  deriving DecidableEq, Repr

structure SignedLogEntry where
  payload : LogEntry
  signature : String
  deriving DecidableEq, Repr

structure ExpiringEntry where
  entry : LogEntry
  expiration : Option Int
  deriving DecidableEq, Repr

/-- Oracles and ambient state for the key verifier: Blake3 (CESR-encoded),
the secp256r1 signature check, RFC-3339 parsing (to an integer instant),
the JSON substring extractor, serde parsing of a SignedLogEntry, the current
instant, and the verification window in seconds. -/
structure Env where
  blake3 : String → String
  sigOk : String → String → String → Bool
  parseTime : String → Option Int
  subJson : String → Option String
  parseRecord : String → Option SignedLogEntry
  now : Int
  window : Int

inductive VErr
  | noKeys
  | subJson
  | parseRecord
  | pfxNeqId
  | idHashMismatch
  | sigFail
  | badSeq
  | parseCreated
  | futureTimestamp
  | missingPrevious
  | brokenChain
  | nonIncreasing
  | badCommitment
  | identityNotFound
  | cantFindKey
  | incorrectIdentity
  | incorrectPurpose
  | expiredKey
  | msgSigFail
  deriving DecidableEq, Repr

def HSMIdentity : String := "BETTER_AUTH_HSM_IDENTITY_PLACEHOLDER"

def mask44 : String := "############################################"

/-- Lines 93-101: extract the payload substring and parse each present value,
aborting at the first extraction or parse failure. -/
def parseValues (env : Env) : List (Option String) → Except VErr (List (SignedLogEntry × String))
  | [] => .ok []
  | none :: rest => parseValues env rest
  | some v :: rest =>
    match env.subJson v with
    | none => .error .subJson
    | some pj =>
      match env.parseRecord v with
      | none => .error .parseRecord
      | some r =>
        match parseValues env rest with
        | .error e => .error e
        | .ok rs => .ok ((r, pj) :: rs)

/-- HashMap entry().or_default().push(): append to the group keyed by the
payload prefix, creating the group on first appearance. -/
def addToGroup (gs : List (String × List (SignedLogEntry × String))) (k : String)
    (it : SignedLogEntry × String) : List (String × List (SignedLogEntry × String)) :=
  match gs with
  | [] => [(k, [it])]
  | (k', its) :: rest =>
      if k' = k then (k', its ++ [it]) :: rest else (k', its) :: addToGroup rest k it

def groupByPfx : List (SignedLogEntry × String) → List (String × List (SignedLogEntry × String))
  | [] => []
  | it :: rest => addToGroup (groupByPfx rest) it.1.payload.pfx it

def insertBySeq (x : SignedLogEntry × String) :
    List (SignedLogEntry × String) → List (SignedLogEntry × String)
  | [] => [x]
  | y :: r =>
      if x.1.payload.sequenceNumber < y.1.payload.sequenceNumber then x :: y :: r
      else y :: insertBySeq x r

/-- Stable sort by sequenceNumber, modelling Vec::sort_by_key. -/
def sortBySeq : List (SignedLogEntry × String) → List (SignedLogEntry × String)
  | [] => []
  | x :: r => insertBySeq x (sortBySeq r)

/-- KeyVerifier::verify_address_and_data (lines 244-255). -/
def checkAddressAndData (env : Env) (pj : String) (p : LogEntry) : Except VErr Unit :=
  if env.blake3 (rustReplace pj p.id mask44) = p.id then .ok () else .error .idHashMismatch

/-- KeyVerifier::verify_prefix_and_data (lines 236-242). -/
def checkPfxAndData (env : Env) (pj : String) (p : LogEntry) : Except VErr Unit :=
  if p.id = p.pfx then checkAddressAndData env pj p else .error .pfxNeqId

/-- One iteration of the data-and-signature loop (lines 110-122). -/
def checkEntry (env : Env) (it : SignedLogEntry × String) : Except VErr Unit :=
  match (if it.1.payload.sequenceNumber = 0
         then checkPfxAndData env it.2 it.1.payload
         else checkAddressAndData env it.2 it.1.payload) with
  | .error e => .error e
  | .ok _ =>
      if env.sigOk it.2 it.1.signature it.1.payload.publicKey then .ok ()
      else .error .sigFail

def checkEntries (env : Env) : List (SignedLogEntry × String) → Except VErr Unit
  | [] => .ok ()
  | it :: rest =>
    match checkEntry env it with
    | .error e => .error e
    | .ok _ => checkEntries env rest

/-- Data and signature verification over every group (lines 109-123). -/
def dataStage (env : Env) : List (String × List (SignedLogEntry × String)) → Except VErr Unit
  | [] => .ok ()
  | g :: rest =>
    match checkEntries env g.2 with
    | .error e => .error e
    | .ok _ => dataStage env rest

/-- Chain validation walk over one prefix group (lines 127-169), carrying the
loop index and the previous iteration's id, rotationHash and createdAt. -/
def chainWalk (env : Env) : Nat → String → String → Int → List (SignedLogEntry × String) →
    Except VErr Unit
  | _, _, _, _, [] => .ok ()
  | i, lastId, lastRot, lastCreated, (r, _) :: rest =>
    let p := r.payload
    if p.sequenceNumber ≠ (i : Int) then .error .badSeq
    else
      match env.parseTime p.createdAt with
      | none => .error .parseCreated
      | some t =>
        if env.now ≤ t then .error .futureTimestamp
        else if p.sequenceNumber ≠ 0 then
          match p.previous with
          | none => .error .missingPrevious
          | some prev =>
            if lastId ≠ prev then .error .brokenChain
            else if t ≤ lastCreated then .error .nonIncreasing
            else if env.blake3 p.publicKey ≠ lastRot then .error .badCommitment
            else chainWalk env (i + 1) p.id p.rotationHash t rest
        else chainWalk env (i + 1) p.id p.rotationHash t rest

/-- Chain validation over every group (lines 126-170). -/
def chainStage (env : Env) : List (String × List (SignedLogEntry × String)) → Except VErr Unit
  | [] => .ok ()
  | g :: rest =>
    match chainWalk env 0 "" "" 0 g.2 with
    | .error e => .error e
    | .ok _ => chainStage env rest

/-- Cache repopulation walk, newest to oldest (lines 177-202): insert while
not tainted, then take the taint flag from the current entry, compute the
entry's expiry and stop once it precedes now. -/
def populateWalk (env : Env) : Bool → Option Int → List (String × ExpiringEntry) →
    List (SignedLogEntry × String) → Except VErr Unit × List (String × ExpiringEntry)
  | _, _, cache, [] => (.ok (), cache)
  | tainted, expiration, cache, (r, _) :: rest =>
    let p := r.payload
    let cache1 := if tainted then cache else ainsert cache p.id ⟨p, expiration⟩
    let tainted1 := p.taintPrevious.getD false
    match env.parseTime p.createdAt with
    | none => (.error .parseCreated, cache1)
    | some t =>
      let exp := t + env.window
      if exp < env.now then (.ok (), cache1)
      else populateWalk env tainted1 (some exp) cache1 rest

/-- KeyVerifier::verify_with_entry (lines 210-234). -/
def verifyWithEntry (env : Env) (ce : ExpiringEntry) (signature hsmIdentity message : String) :
    Except VErr Unit :=
  if ce.entry.pfx ≠ hsmIdentity then .error .incorrectIdentity
  else if ce.entry.purpose ≠ "key-authorization" then .error .incorrectPurpose
  else
    match ce.expiration with
    | some exp =>
        if exp < env.now then .error .expiredKey
        else if env.sigOk message signature ce.entry.publicKey then .ok ()
        else .error .msgSigFail
    | none =>
        if env.sigOk message signature ce.entry.publicKey then .ok () else .error .msgSigFail

/-- Group parsed records by prefix and sort each group by sequence number
(lines 91-106). -/
def buildGroups (rs : List (SignedLogEntry × String)) :
    List (String × List (SignedLogEntry × String)) :=
  (groupByPfx rs).map (fun g => (g.1, sortBySeq g.2))

/-- KeyVerifier::verify (lines 56-208): the returned pair is the result and
the final cache contents. `keys` and `values` stand for the Redis snapshot
(`KEYS *` and `MGET`); the cache is cleared before the snapshot is read. -/
def verify (env : Env) (cache0 : List (String × ExpiringEntry)) (keys : List String)
    (values : List (Option String))
    (signature hsmIdentity hsmGenerationId message : String) :
    Except VErr Unit × List (String × ExpiringEntry) :=
  match alookup cache0 hsmGenerationId with
  | some ce => (verifyWithEntry env ce signature hsmIdentity message, cache0)
  | none =>
    if keys.isEmpty then (.error .noKeys, [])
    else
      match parseValues env values with
      | .error e => (.error e, [])
      | .ok rs =>
        match dataStage env (buildGroups rs) with
        | .error e => (.error e, [])
        | .ok _ =>
          match chainStage env (buildGroups rs) with
          | .error e => (.error e, [])
          | .ok _ =>
            match alookup (buildGroups rs) HSMIdentity with
            | none => (.error .identityNotFound, [])
            | some records =>
              match populateWalk env false none [] records.reverse with
              | (.error e, cache1) => (.error e, cache1)
              | (.ok _, cache1) =>
                match alookup cache1 hsmGenerationId with
                | none => (.error .cantFindKey, cache1)
                | some ce => (verifyWithEntry env ce signature hsmIdentity message, cache1)

/-! ## get_sub_json (basic/services/app-rs/src/implementation/storage/utils.rs)
modelled at the byte level. A Rust &str is a UTF-8 byte sequence: `find`
returns a byte index, `chars().enumerate()` yields characters with their
ordinal (not their byte offset), and slicing is by byte index and panics off
a character boundary. All three appear in the source, so the embedding keeps
bytes and decoded characters distinct. -/

/-- First byte index of an occurrence of `q` in `data` (str::find). -/
def findSub (q : List Nat) : List Nat → Option Nat
  | [] => if q.isEmpty then some 0 else none
  | b :: rest =>
      if q.isPrefixOf (b :: rest) then some 0
      else (findSub q rest).map (· + 1)

/-- Decode UTF-8 bytes to a list of code points; `none` on malformed input
(unreachable for bytes that came from a Rust &str). Fuel-driven so that it
evaluates by reduction. -/
def utf8CharsFuel : Nat → List Nat → Option (List Nat)
  | _, [] => some []
  | 0, _ :: _ => none
  | f + 1, b :: rest =>
      if b < 128 then (utf8CharsFuel f rest).map (b :: ·)
      else if b < 192 then none
      else if b < 224 then
        match rest with
        | c1 :: r =>
            if 128 ≤ c1 ∧ c1 < 192 then
              (utf8CharsFuel f r).map (((b - 192) * 64 + (c1 - 128)) :: ·)
            else none
        | [] => none
      else if b < 240 then
        match rest with
        | c1 :: c2 :: r =>
            if (128 ≤ c1 ∧ c1 < 192) ∧ (128 ≤ c2 ∧ c2 < 192) then
              (utf8CharsFuel f r).map
                (((b - 224) * 4096 + (c1 - 128) * 64 + (c2 - 128)) :: ·)
            else none
        | _ => none
      else if b < 248 then
        match rest with
        | c1 :: c2 :: c3 :: r =>
            if ((128 ≤ c1 ∧ c1 < 192) ∧ (128 ≤ c2 ∧ c2 < 192)) ∧ (128 ≤ c3 ∧ c3 < 192) then
              (utf8CharsFuel f r).map
                (((b - 240) * 262144 + (c1 - 128) * 4096 + (c2 - 128) * 64 + (c3 - 128)) :: ·)
            else none
        | _ => none
      else none

def utf8Chars (bs : List Nat) : Option (List Nat) :=
  utf8CharsFuel bs.length bs

/-- str::is_char_boundary. -/
def isCharBoundary (data : List Nat) (i : Nat) : Bool :=
  if i = data.length then true
  else
    match data.get? i with
    | some b => decide (¬ (128 ≤ b ∧ b < 192))
    | none => false

/-- The brace-matching loop of get_sub_json over a sequence of items
(characters in the source; also reused over raw bytes for the reference
extraction): returns the exclusive end position `idx + 1` of the item that
closes the first object. -/
def braceScan : List Nat → Nat → Int → Bool → Option Nat
  | [], _, _, _ => none
  | ch :: rest, i, count, inBody =>
      if ch = 123 then braceScan rest (i + 1) (count + 1) true
      else if ch = 125 then
        if inBody ∧ count - 1 = 0 then some (i + 1)
        else braceScan rest (i + 1) (count - 1) inBody
      else braceScan rest (i + 1) count inBody

inductive ExtractOutcome
  | ok (bytes : List Nat)
  | errMissing
  | errFailed
  | panicked
  deriving DecidableEq, Repr

/-- get_sub_json over the bytes of `data` for an ASCII `label`: find the
byte index of the marker, enumerate the *characters* after it, use the
character ordinal as a byte offset for the end of the slice (as the source
does), and slice by bytes. -/
def getSubJson (data label : List Nat) : ExtractOutcome :=
  let query := 34 :: (label ++ [34, 58])
  match findSub query data with
  | none => .errMissing
  | some qi =>
    let bodyStart := qi + query.length
    match utf8Chars (data.drop bodyStart) with
    | none => .panicked
    | some chars =>
      match braceScan chars 0 0 false with
      | none => .errFailed
      | some e =>
        let bodyEnd := bodyStart + e
        if isCharBoundary data bodyStart ∧ isCharBoundary data bodyEnd ∧ bodyEnd ≤ data.length
        then .ok ((data.take bodyEnd).drop bodyStart)
        else .panicked

/-- Reference extraction following the specification wording: the contiguous
byte range from the first opening brace after the marker through its matching
closing brace, counting braces naively over raw bytes. -/
def extractSpec (data label : List Nat) : Option (List Nat) :=
  let query := 34 :: (label ++ [34, 58])
  match findSub query data with
  | none => none
  | some qi =>
    let bodyStart := qi + query.length
    (braceScan (data.drop bodyStart) 0 0 false).map
      (fun e => (data.drop bodyStart).take e)

/-! ## RedisVerificationKeyStore::process_response
(basic/services/app-rs/src/implementation/storage/redis_verification_key_store.rs,
lines 93-126). serde parsing, the raw-body extraction and the key-log
verification are oracles; purpose and expiration policy follow the source. -/

structure KeySigningPayload where
  purpose : String
  publicKey : String
  expiration : String
  deriving DecidableEq, Repr

structure KeySigningHsm where
  identity : String
  generationId : String
  deriving DecidableEq, Repr

structure KeySigningBody where
  payload : KeySigningPayload
  hsm : KeySigningHsm
  deriving DecidableEq, Repr

structure KeySigningResponse where
  body : KeySigningBody
  signature : String
  deriving DecidableEq, Repr

inductive KSErr
  | parseResponse
  | subJson
  | hsmVerify
  | invalidPurpose
  | parseExpiration
  | keyExpired
  deriving DecidableEq, Repr

def processResponse (parseResp : String → Option KeySigningResponse)
    (subJ : String → Option String)
    (kvOk : String → String → String → String → Bool)
    (parseTime : String → Option Int) (now : Int) (value : String) :
    Except KSErr String :=
  match parseResp value with
  | none => .error .parseResponse
  | some resp =>
    match subJ value with
    | none => .error .subJson
    | some bodyJson =>
      if kvOk resp.signature resp.body.hsm.identity resp.body.hsm.generationId bodyJson = false
      then .error .hsmVerify
      else if resp.body.payload.purpose ≠ "access" then .error .invalidPurpose
      else
        match parseTime resp.body.payload.expiration with
        | none => .error .parseExpiration
        | some t =>
          if t ≤ now then .error .keyExpired
          else .ok resp.body.payload.publicKey

/-! ## Error classification -/

/-- Errors raised by the parse, data/signature and chain validation stages of
the miss path, before cache repopulation. -/
def isValidationErr : VErr → Bool
  | .subJson | .parseRecord | .pfxNeqId | .idHashMismatch | .sigFail
  | .badSeq | .parseCreated | .futureTimestamp | .missingPrevious
  | .brokenChain | .nonIncreasing | .badCommitment => true
  | _ => false

/-- Errors that the chain-validation walk can produce. -/
def isChainErr : VErr → Bool
  | .badSeq | .parseCreated | .futureTimestamp | .missingPrevious
  | .brokenChain | .nonIncreasing | .badCommitment => true
  | _ => false

/-! ## Concrete instances used by counterexamples and witnesses -/

/-- Sequence-0 entry of the concrete log; its id equals the HSM identity. -/
def logE0 : LogEntry :=
  ⟨HSMIdentity, HSMIdentity, none, 0, "T0", none, "key-authorization", "PK0", "RH0"⟩

def logE1 : LogEntry :=
  ⟨"ID1", HSMIdentity, some HSMIdentity, 1, "T1", none, "key-authorization", "PK1", "RH1"⟩

/-- Sequence-2 entry carrying taintPrevious = true. -/
def logE2 : LogEntry :=
  ⟨"ID2", HSMIdentity, some "ID1", 2, "T2", some true, "key-authorization", "PK2", "RH2"⟩

/-- Oracles making the three concrete entries a fully valid log: the Blake3
oracle maps each payload substring to the corresponding id and each public
key to the preceding rotation hash, timestamps parse to 0, 1, 2 with now 10
and window 100. -/
def envC1 : Env where
  blake3 := fun s =>
    if s = "P0" then HSMIdentity
    else if s = "P1" then "ID1"
    else if s = "P2" then "ID2"
    else if s = "PK1" then "RH0"
    else if s = "PK2" then "RH1"
    else "X"
  sigOk := fun _ _ _ => true
  parseTime := fun s =>
    if s = "T0" then some 0 else if s = "T1" then some 1 else if s = "T2" then some 2 else none
  subJson := fun v =>
    if v = "V0" then some "P0"
    else if v = "V1" then some "P1"
    else if v = "V2" then some "P2"
    else none
  parseRecord := fun v =>
    if v = "V0" then some ⟨logE0, "S0"⟩
    else if v = "V1" then some ⟨logE1, "S1"⟩
    else if v = "V2" then some ⟨logE2, "S2"⟩
    else none
  now := 10
  window := 100

def valsC1 : List (Option String) := [some "V0", some "V1", some "V2"]

/-- The concrete log as one prefix group, in sorted order. -/
def listC1 : List (SignedLogEntry × String) :=
  [(⟨logE0, "S0"⟩, "P0"), (⟨logE1, "S1"⟩, "P1"), (⟨logE2, "S2"⟩, "P2")]

def gsC3 : List (String × List (SignedLogEntry × String)) := [(HSMIdentity, listC1)]

/-- Entry resolved on the cache-hit path of the C5 counterexample. -/
def entryC5 : LogEntry :=
  ⟨"GID", "HID", none, 0, "TC", none, "key-authorization", "PKC", "RHC"⟩

def envC5 : Env where
  blake3 := fun _ => ""
  sigOk := fun _ _ _ => true
  parseTime := fun _ => none
  subJson := fun _ => none
  parseRecord := fun _ => none
  now := 5
  window := 0

/-- Cache whose entry expires exactly at `now`. -/
def cacheC5 : List (String × ExpiringEntry) := [("GEN", ⟨entryC5, some 5⟩)]

/-- Cache whose entry expires strictly after `now`. -/
def cacheC5b : List (String × ExpiringEntry) := [("GEN", ⟨entryC5, some 6⟩)]

/-- Minimal environment for witnesses: every payload substring "J" hashes to
"I" and signatures verify. -/
def envW : Env where
  blake3 := fun s => if s = "J" then "I" else "X"
  sigOk := fun _ _ _ => true
  parseTime := fun _ => none
  subJson := fun _ => none
  parseRecord := fun _ => none
  now := 0
  window := 0

def entryW : LogEntry := ⟨"I", "I", none, 0, "TW", none, "key-authorization", "PKW", "RHW"⟩

def gsW : List (String × List (SignedLogEntry × String)) := [("I", [(⟨entryW, "SW"⟩, "J")])]

def cacheW2 : List (String × ExpiringEntry) := [("old", ⟨entryW, none⟩)]

/-- UTF-8 bytes of a JSON document whose body object contains the two-byte
character U+00E9 before the closing brace. -/
def data7 : List Nat :=
  [123, 34, 98, 111, 100, 121, 34, 58,
   123, 34, 97, 34, 58, 34, 195, 169, 34, 44, 34, 98, 34, 58, 49, 125, 125]

/-- ASCII bytes of the label "body". -/
def label7 : List Nat := [98, 111, 100, 121]

/-- What the source returns on data7: the character ordinal of the matching
close brace was used as a byte offset, so the final byte 125 is missing. -/
def res7 : List Nat := [123, 34, 97, 34, 58, 34, 195, 169, 34, 44, 34, 98, 34, 58, 49]

/-- The byte range the specification demands on data7. -/
def spec7 : List Nat := [123, 34, 97, 34, 58, 34, 195, 169, 34, 44, 34, 98, 34, 58, 49, 125]

def respW : KeySigningResponse := ⟨⟨⟨"access", "PKA", "EXPA"⟩, ⟨"HID", "GID"⟩⟩, "SIGW"⟩

/-! ## C6: nonce reservation -/

/-- C6: reserve(x) fails with "value reserved too recently" iff x is present
and now < validAfter[x]; a failed reserve leaves the map unchanged; otherwise
it succeeds and sets validAfter[x] = now + L, so a second reserve within L
seconds of a successful one fails. -/
theorem nonce_reserve_characterization (m : List (String × Int)) (x : String) (now L : Int) :
    ((reserve m x now L).1 = .error "value reserved too recently" ↔
      ∃ t, alookup m x = some t ∧ now < t) ∧
    ((∃ t, alookup m x = some t ∧ now < t) → (reserve m x now L).2 = m) ∧
    ((¬ ∃ t, alookup m x = some t ∧ now < t) →
      (reserve m x now L).1 = .ok () ∧ alookup (reserve m x now L).2 x = some (now + L)) ∧
    (∀ now', (reserve m x now L).1 = .ok () → now' < now + L →
      (reserve (reserve m x now L).2 x now' L).1 = .error "value reserved too recently") := by
  rcases h : alookup m x with _ | t
  · refine ⟨by simp [reserve, h], by simp [reserve, h], by simp [reserve, h, alookup_ainsert_self], ?_⟩
    intro now' _ hlt
    simp [reserve, h, alookup_ainsert_self, hlt]
  · by_cases hc : now < t
    · refine ⟨by simp [reserve, h, hc], by simp [reserve, h, hc], ?_, ?_⟩
      · intro hn; exact absurd ⟨t, rfl, hc⟩ hn
      · intro now' hok; simp [reserve, h, hc] at hok
    · refine ⟨by simp [reserve, h, hc], ?_, by simp [reserve, h, hc, alookup_ainsert_self], ?_⟩
      · rintro ⟨t', ht', hlt⟩
        cases ht'
        exact absurd hlt hc
      · intro now' _ hlt
        simp [reserve, h, hc, alookup_ainsert_self, hlt]

/-- Witness for C6: reserving "n" at time 0 with lifetime 5, then again at
time 3, fails the second reservation. -/
theorem nonce_reserve_witness :
    (reserve (reserve [] "n" 0 5).2 "n" 3 5).1 = .error "value reserved too recently" :=
  (nonce_reserve_characterization [] "n" 0 5).2.2.2 3 rfl (by decide)

/-! ## C10: out-of-range slicing in Secp256r1 verify -/

/-- C10: the verifier slices 3 bytes off the decoded public key and 2 bytes
off the decoded signature without length checks; a valid base64url public
key decoding to 1 byte ("AA==") or a signature decoding to 1 byte panics
instead of returning an error, for every behaviour of the curve oracles. -/
theorem secp_verify_short_input_panics :
    (∀ importOk parseSigOk ecdsaOk,
       secpVerify importOk parseSigOk ecdsaOk "msg" "AAAA" "AA==" = .panicked) ∧
    (∀ parseSigOk ecdsaOk,
       secpVerify (fun _ => true) parseSigOk ecdsaOk "msg" "AA==" "AAAA" = .panicked) := by
  constructor
  · intro importOk parseSigOk ecdsaOk
    simp [secpVerify, show b64urlDecode "AA==" = some [0] from rfl]
  · intro parseSigOk ecdsaOk
    simp [secpVerify, show b64urlDecode "AAAA" = some [0, 0, 0] from rfl,
          show b64urlDecode "AA==" = some [0] from rfl]

/-! ## C8: error behaviour of Secp256r1 verify -/

/-- Counterexample for C8: a public key that is not valid base64url produces
the distinct error `Failed to decode public key`, not the generic
`invalid signature`, so the error does reveal which check failed. -/
theorem secp_verify_error_counterexample :
    secpVerify (fun _ => true) (fun _ => true) (fun _ _ _ => true) "m" "AAAA" "%" =
      .err .decodePublicKey ∧
    SigOutcome.err .decodePublicKey ≠ .ok ∧
    SigOutcome.err .decodePublicKey ≠ .err .invalidSignature := by decide

/-- C8 amended: the generic `invalid signature` error is returned exactly
when CESR decoding, key import and signature parsing all succeed and only
the curve verification fails; malformed inputs yield one of four distinct
decode/import/parse errors instead (and too-short decoded inputs panic). -/
theorem secp_verify_generic_error_characterization
    (importOk parseSigOk : List Nat → Bool) (ecdsaOk : List Nat → String → List Nat → Bool)
    (m s pk : String) :
    secpVerify importOk parseSigOk ecdsaOk m s pk = .err .invalidSignature ↔
      ∃ pkB sgB, b64urlDecode pk = some pkB ∧ 3 ≤ pkB.length ∧
        importOk (pkB.drop 3) = true ∧ b64urlDecode s = some sgB ∧ 2 ≤ sgB.length ∧
        parseSigOk (sgB.drop 2) = true ∧ ecdsaOk (pkB.drop 3) m (sgB.drop 2) = false := by
  rcases hpk : b64urlDecode pk with _ | pkB
  · simp [secpVerify, hpk]
  · by_cases hl : pkB.length < 3
    · simp only [secpVerify, hpk]
      rw [if_pos hl]
      constructor
      · intro h; cases h
      · rintro ⟨pkB', sgB, hpkB, hlen, -⟩
        cases hpkB
        exact absurd hlen (by omega)
    · by_cases him : importOk (pkB.drop 3) = false
      · simp only [secpVerify, hpk]
        rw [if_neg hl, if_pos him]
        constructor
        · intro h; cases h
        · rintro ⟨pkB', sgB, hpkB, -, himp, -⟩
          cases hpkB
          simp [himp] at him
      · rcases hs : b64urlDecode s with _ | sgB
        · simp [secpVerify, hpk, hl, him, hs]
        · by_cases hl2 : sgB.length < 2
          · simp only [secpVerify, hpk, hs]
            rw [if_neg hl, if_neg him, if_pos hl2]
            constructor
            · intro h; cases h
            · rintro ⟨pkB', sgB', hpkB, -, -, hsgB, hlen2, -⟩
              cases hpkB
              cases hsgB
              exact absurd hlen2 (by omega)
          · by_cases hps : parseSigOk (sgB.drop 2) = false
            · simp only [secpVerify, hpk, hs]
              rw [if_neg hl, if_neg him, if_neg hl2, if_pos hps]
              constructor
              · intro h; cases h
              · rintro ⟨pkB', sgB', hpkB, -, -, hsgB, -, hp2, -⟩
                cases hpkB
                cases hsgB
                simp [hp2] at hps
            · simp only [secpVerify, hpk, hs]
              rw [if_neg hl, if_neg him, if_neg hl2, if_neg hps]
              by_cases hec : ecdsaOk (pkB.drop 3) m (sgB.drop 2) = true
              · rw [if_pos hec]
                constructor
                · intro h; cases h
                · rintro ⟨pkB', sgB', hpkB, -, -, hsgB, -, -, hec'⟩
                  cases hpkB
                  cases hsgB
                  simp [hec] at hec'
              · rw [if_neg hec]
                constructor
                · intro _
                  exact ⟨pkB, sgB, rfl, by omega, by simpa using him, rfl, by omega,
                         by simpa using hps, by simpa using hec⟩
                · intro _; rfl

/-! ## C7: byte/char confusion in get_sub_json -/

/-- C7 (code bug): on a document containing the two-byte character U+00E9
inside the body object, get_sub_json succeeds but returns a byte range whose
end was computed from a character ordinal, so the result res7 is missing the
closing brace that the specified extraction spec7 includes. -/
theorem get_sub_json_truncates_multibyte :
    getSubJson data7 label7 = .ok res7 ∧
    extractSpec data7 label7 = some spec7 ∧
    res7 ≠ spec7 := by decide

/-! ## C9: access verification-key store policy -/

/-- C9: once parsing, extraction and HSM key-log verification succeed, get
fails with `invalid purpose` unless the purpose is "access", fails with
`key expired` when the expiration parses to a time at or before now, and
otherwise returns the payload's public key. -/
theorem access_key_store_policy
    (parseResp : String → Option KeySigningResponse) (subJ : String → Option String)
    (kvOk : String → String → String → String → Bool) (parseTime : String → Option Int)
    (now : Int) (value : String) (resp : KeySigningResponse) (bj : String)
    (hp : parseResp value = some resp) (hs : subJ value = some bj)
    (hv : kvOk resp.signature resp.body.hsm.identity resp.body.hsm.generationId bj = true) :
    (resp.body.payload.purpose ≠ "access" →
       processResponse parseResp subJ kvOk parseTime now value = .error .invalidPurpose) ∧
    (resp.body.payload.purpose = "access" →
       ∀ t, parseTime resp.body.payload.expiration = some t →
         (t ≤ now → processResponse parseResp subJ kvOk parseTime now value =
            .error .keyExpired) ∧
         (now < t → processResponse parseResp subJ kvOk parseTime now value =
            .ok resp.body.payload.publicKey)) := by
  constructor
  · intro hpu
    simp [processResponse, hp, hs, hv, hpu]
  · intro hpu t ht
    constructor
    · intro hle
      simp [processResponse, hp, hs, hv, hpu, ht, hle]
    · intro hlt
      have : ¬ t ≤ now := by omega
      simp [processResponse, hp, hs, hv, hpu, ht, this]

/-- Witness for C9 at a concrete record with purpose "access" expiring at 7
with now 5: the public key "PKA" is returned. -/
theorem access_key_store_policy_witness :
    processResponse (fun _ => some respW) (fun _ => some "BJ") (fun _ _ _ _ => true)
      (fun _ => some 7) 5 "VAL" = .ok "PKA" := by
  have h := access_key_store_policy (fun _ => some respW) (fun _ => some "BJ")
      (fun _ _ _ _ => true) (fun _ => some 7) 5 "VAL" respW "BJ" rfl rfl rfl
  exact ((h.2 rfl) 7 rfl).2 (by decide)

/-! ## C5: re-validation of the resolved cache entry -/

theorem verifyWithEntry_ok_post (env : Env) (ce : ExpiringEntry) (s hid m : String)
    (h : verifyWithEntry env ce s hid m = .ok ()) :
    ce.entry.pfx = hid ∧ ce.entry.purpose = "key-authorization" ∧
    ∀ t, ce.expiration = some t → env.now ≤ t := by
  unfold verifyWithEntry at h
  by_cases h1 : ce.entry.pfx ≠ hid
  · rw [if_pos h1] at h; cases h
  · rw [if_neg h1] at h
    by_cases h2 : ce.entry.purpose ≠ "key-authorization"
    · rw [if_pos h2] at h; cases h
    · rw [if_neg h2] at h
      refine ⟨not_not.mp h1, not_not.mp h2, ?_⟩
      intro t ht
      rw [ht] at h
      by_cases h3 : t < env.now
      · simp [h3] at h
      · omega

theorem verifyWithEntry_err_not_validation (env : Env) (ce : ExpiringEntry)
    (s hid m : String) (e : VErr) (h : verifyWithEntry env ce s hid m = .error e) :
    isValidationErr e = false := by
  unfold verifyWithEntry at h
  split at h
  · cases h; rfl
  · split at h
    · cases h; rfl
    · split at h
      · split at h
        · cases h; rfl
        · split at h
          · cases h
          · cases h; rfl
      · split at h
        · cases h
        · cases h; rfl

/-- Counterexample for C5: on the cache-hit path the resolved entry has
`expiration = some 5` with `now = 5`; the code rejects only when the
expiration is strictly before now, so verify returns Ok although the
expiration is not strictly greater than now as the claim requires. -/
theorem key_verifier_accepts_expiration_equal_now :
    (verify envC5 cacheC5 [] [] "S" "HID" "GEN" "M").1 = .ok () ∧
    alookup (verify envC5 cacheC5 [] [] "S" "HID" "GEN" "M").2 "GEN" =
      some ⟨entryC5, some 5⟩ ∧
    ¬ (envC5.now < 5) := ⟨rfl, rfl, by decide⟩

/-- C5 amended: whenever verify returns Ok, the entry resolved from the final
cache under hsmGenerationId has prefix equal to the supplied hsmIdentity,
purpose "key-authorization", and an expiration (when set) at or after now
(the code rejects with `expired key` only when expiration < now); the
`incorrect identity`, `incorrect purpose` and `expired key` errors are
produced by the corresponding violated check, before any signature check. -/
theorem key_verifier_ok_postcondition (env : Env) :
    (∀ cache0 keys values s hid gen m,
       (verify env cache0 keys values s hid gen m).1 = .ok () →
       ∃ ce, alookup (verify env cache0 keys values s hid gen m).2 gen = some ce ∧
         ce.entry.pfx = hid ∧ ce.entry.purpose = "key-authorization" ∧
         ∀ t, ce.expiration = some t → env.now ≤ t) ∧
    (∀ ce s hid m, ce.entry.pfx ≠ hid →
       verifyWithEntry env ce s hid m = .error .incorrectIdentity) ∧
    (∀ ce s hid m, ce.entry.pfx = hid → ce.entry.purpose ≠ "key-authorization" →
       verifyWithEntry env ce s hid m = .error .incorrectPurpose) ∧
    (∀ ce s hid m t, ce.entry.pfx = hid → ce.entry.purpose = "key-authorization" →
       ce.expiration = some t → t < env.now →
       verifyWithEntry env ce s hid m = .error .expiredKey) := by
  refine ⟨?_, ?_, ?_, ?_⟩
  · intro cache0 keys values s hid gen m hv
    rcases h0 : alookup cache0 gen with _ | ce
    · by_cases hk : keys.isEmpty = true
      · have hveq : verify env cache0 keys values s hid gen m = (.error .noKeys, []) := by
          simp only [verify, h0]
          rw [if_pos hk]
        rw [hveq] at hv; cases hv
      · rcases hp : parseValues env values with e | rs
        · have hveq : verify env cache0 keys values s hid gen m = (.error e, []) := by
            simp only [verify, h0, hp]
            rw [if_neg hk]
          rw [hveq] at hv; cases hv
        · rcases hd : dataStage env (buildGroups rs) with e | u
          · have hveq : verify env cache0 keys values s hid gen m = (.error e, []) := by
              simp only [verify, h0, hp, hd]
              rw [if_neg hk]
            rw [hveq] at hv; cases hv
          · rcases hc : chainStage env (buildGroups rs) with e | u'
            · have hveq : verify env cache0 keys values s hid gen m = (.error e, []) := by
                simp only [verify, h0, hp, hd, hc]
                rw [if_neg hk]
              rw [hveq] at hv; cases hv
            · rcases hg : alookup (buildGroups rs) HSMIdentity with _ | records
              · have hveq : verify env cache0 keys values s hid gen m =
                    (.error .identityNotFound, []) := by
                  simp only [verify, h0, hp, hd, hc, hg]
                  rw [if_neg hk]
                rw [hveq] at hv; cases hv
              · rcases hw : populateWalk env false none [] records.reverse with ⟨res, cache1⟩
                rcases res with e | u''
                · have hveq : verify env cache0 keys values s hid gen m =
                      (.error e, cache1) := by
                    simp only [verify, h0, hp, hd, hc, hg, hw]
                    rw [if_neg hk]
                  rw [hveq] at hv; cases hv
                · rcases hl : alookup cache1 gen with _ | ce
                  · have hveq : verify env cache0 keys values s hid gen m =
                        (.error .cantFindKey, cache1) := by
                      simp only [verify, h0, hp, hd, hc, hg, hw, hl]
                      rw [if_neg hk]
                    rw [hveq] at hv; cases hv
                  · have hveq : verify env cache0 keys values s hid gen m =
                        (verifyWithEntry env ce s hid m, cache1) := by
                      simp only [verify, h0, hp, hd, hc, hg, hw, hl]
                      rw [if_neg hk]
                    rw [hveq] at hv ⊢
                    exact ⟨ce, hl, verifyWithEntry_ok_post env ce s hid m hv⟩
    · have hveq : verify env cache0 keys values s hid gen m =
          (verifyWithEntry env ce s hid m, cache0) := by
        simp only [verify, h0]
      rw [hveq] at hv ⊢
      exact ⟨ce, h0, verifyWithEntry_ok_post env ce s hid m hv⟩
  · intro ce s hid m h1
    unfold verifyWithEntry
    rw [if_pos h1]
  · intro ce s hid m h1 h2
    unfold verifyWithEntry
    rw [if_neg (not_not.mpr h1), if_pos h2]
  · intro ce s hid m t h1 h2 h3 h4
    unfold verifyWithEntry
    rw [if_neg (not_not.mpr h1), if_neg (not_not.mpr h2), h3]
    simp [h4]

/-- Witness for C5 amended: a cache-hit run whose resolved entry expires at
6 with now 5 satisfies the postcondition. -/
theorem key_verifier_ok_postcondition_witness :
    ∃ ce, alookup (verify envC5 cacheC5b [] [] "S" "HID" "GEN" "M").2 "GEN" = some ce ∧
      ce.entry.pfx = "HID" ∧ ce.entry.purpose = "key-authorization" ∧
      ∀ t, ce.expiration = some t → envC5.now ≤ t :=
  (key_verifier_ok_postcondition envC5).1 cacheC5b [] [] "S" "HID" "GEN" "M" rfl

/-! ## C4: self-addressing of accepted entries -/

theorem checkEntry_sound (env : Env) (it : SignedLogEntry × String)
    (h : checkEntry env it = .ok ()) :
    env.blake3 (rustReplace it.2 it.1.payload.id mask44) = it.1.payload.id ∧
    (it.1.payload.sequenceNumber = 0 → it.1.payload.id = it.1.payload.pfx) := by
  unfold checkEntry at h
  rcases hc : (if it.1.payload.sequenceNumber = 0
               then checkPfxAndData env it.2 it.1.payload
               else checkAddressAndData env it.2 it.1.payload) with e | u
  · rw [hc] at h; cases h
  · by_cases hs : it.1.payload.sequenceNumber = 0
    · rw [if_pos hs] at hc
      unfold checkPfxAndData at hc
      by_cases hid : it.1.payload.id = it.1.payload.pfx
      · rw [if_pos hid] at hc
        unfold checkAddressAndData at hc
        by_cases hb : env.blake3 (rustReplace it.2 it.1.payload.id mask44) = it.1.payload.id
        · exact ⟨hb, fun _ => hid⟩
        · rw [if_neg hb] at hc; cases hc
      · rw [if_neg hid] at hc; cases hc
    · rw [if_neg hs] at hc
      unfold checkAddressAndData at hc
      by_cases hb : env.blake3 (rustReplace it.2 it.1.payload.id mask44) = it.1.payload.id
      · exact ⟨hb, fun h0 => absurd h0 hs⟩
      · rw [if_neg hb] at hc; cases hc

theorem checkEntries_sound (env : Env) : ∀ l, checkEntries env l = .ok () →
    ∀ it ∈ l, env.blake3 (rustReplace it.2 it.1.payload.id mask44) = it.1.payload.id ∧
      (it.1.payload.sequenceNumber = 0 → it.1.payload.id = it.1.payload.pfx) := by
  intro l
  induction l with
  | nil => intro _ it hit; cases hit
  | cons x rest ih =>
      intro h it hit
      unfold checkEntries at h
      rcases hx : checkEntry env x with e | u
      · rw [hx] at h; cases h
      · rw [hx] at h
        cases hit with
        | head => exact checkEntry_sound env x hx
        | tail _ hmem => exact ih h it hmem

theorem dataStage_sound (env : Env) : ∀ gs, dataStage env gs = .ok () →
    ∀ g ∈ gs, checkEntries env g.2 = .ok () := by
  intro gs
  induction gs with
  | nil => intro _ g hg; cases hg
  | cons x rest ih =>
      intro h g hg
      unfold dataStage at h
      rcases hx : checkEntries env x.2 with e | u
      · rw [hx] at h; cases h
      · rw [hx] at h
        cases hg with
        | head => exact hx
        | tail _ hmem => exact ih h g hmem

/-- C4: every entry accepted by the data-verification stage of the miss path
satisfies Blake3 of the raw payload JSON with every occurrence of the id
replaced by 44 hash marks equals the id, and every sequence-0 entry has
id equal to its prefix. -/
theorem data_stage_self_addressing (env : Env)
    (gs : List (String × List (SignedLogEntry × String))) (h : dataStage env gs = .ok ()) :
    ∀ g ∈ gs, ∀ it ∈ g.2,
      env.blake3 (rustReplace it.2 it.1.payload.id mask44) = it.1.payload.id ∧
      (it.1.payload.sequenceNumber = 0 → it.1.payload.id = it.1.payload.pfx) := by
  intro g hg it hit
  exact checkEntries_sound env g.2 (dataStage_sound env gs h g hg) it hit

/-- Witness for C4: a concrete one-entry group passing the data stage. -/
theorem data_stage_self_addressing_witness :
    envW.blake3 (rustReplace "J" "I" mask44) = "I" :=
  (data_stage_self_addressing envW gsW rfl ("I", [(⟨entryW, "SW"⟩, "J")])
    (by simp [gsW]) (⟨entryW, "SW"⟩, "J") (by simp)).1

/-! ## C3: chain validation -/

theorem chainWalk_cons_ok (env : Env) (i : Nat) (lid lrot : String) (lt : Int)
    (r : SignedLogEntry) (pj : String) (rest : List (SignedLogEntry × String))
    (h : chainWalk env i lid lrot lt ((r, pj) :: rest) = .ok ()) :
    r.payload.sequenceNumber = (i : Int) ∧
    ∃ t, env.parseTime r.payload.createdAt = some t ∧ t < env.now ∧
      (r.payload.sequenceNumber ≠ 0 →
        r.payload.previous = some lid ∧ lt < t ∧ env.blake3 r.payload.publicKey = lrot) ∧
      chainWalk env (i + 1) r.payload.id r.payload.rotationHash t rest = .ok () := by
  unfold chainWalk at h
  by_cases h1 : r.payload.sequenceNumber ≠ (i : Int)
  · rw [if_pos h1] at h; cases h
  · rw [if_neg h1] at h
    rcases hp : env.parseTime r.payload.createdAt with _ | t
    · rw [hp] at h; cases h
    · rw [hp] at h
      by_cases h2 : env.now ≤ t
      · simp [h2] at h
      · by_cases h3 : r.payload.sequenceNumber ≠ 0
        · rcases hprev : r.payload.previous with _ | prev
          · simp [h2, h3, hprev] at h
          · by_cases h4 : lid ≠ prev
            · simp [h2, h3, hprev, h4] at h
            · by_cases h5 : t ≤ lt
              · simp [h2, h3, hprev, h4, h5] at h
              · by_cases h6 : env.blake3 r.payload.publicKey ≠ lrot
                · simp [h2, h3, hprev, h4, h5, h6] at h
                · simp only [h2, h3, hprev, h4, h5, h6] at h
                  simp at h
                  refine ⟨not_not.mp h1, t, rfl, by omega, ?_, h⟩
                  intro _
                  exact ⟨congrArg some (not_not.mp h4).symm, by omega, not_not.mp h6⟩
        · simp [h2, h3] at h
          refine ⟨not_not.mp h1, t, rfl, by omega, ?_, h⟩
          intro hne
          exact absurd hne h3

theorem chainWalk_sound (env : Env) :
    ∀ (rs : List (SignedLogEntry × String)) (i : Nat) (lid lrot : String) (lt : Int),
    chainWalk env i lid lrot lt rs = .ok () →
    (∀ k pr, rs[k]? = some pr →
       pr.1.payload.sequenceNumber = ((i + k : Nat) : Int) ∧
       ∃ t, env.parseTime pr.1.payload.createdAt = some t ∧ t < env.now) ∧
    (∀ k pr pr', rs[k + 1]? = some pr → rs[k]? = some pr' →
       pr.1.payload.previous = some pr'.1.payload.id ∧
       (∀ t t', env.parseTime pr.1.payload.createdAt = some t →
         env.parseTime pr'.1.payload.createdAt = some t' → t' < t) ∧
       env.blake3 pr.1.payload.publicKey = pr'.1.payload.rotationHash) := by
  intro rs
  induction rs with
  | nil =>
      intro i lid lrot lt _
      constructor
      · intro k pr hk; simp at hk
      · intro k pr pr' hk _; simp at hk
  | cons x rest ih =>
      intro i lid lrot lt h
      obtain ⟨r, pj⟩ := x
      obtain ⟨hseq, t, hp, htn, hprev, hrec⟩ := chainWalk_cons_ok env i lid lrot lt r pj rest h
      have IH := ih (i + 1) r.payload.id r.payload.rotationHash t hrec
      constructor
      · intro k pr hk
        cases k with
        | zero =>
            rw [List.getElem?_cons_zero] at hk
            cases hk
            exact ⟨by simpa using hseq, t, hp, htn⟩
        | succ k' =>
            rw [List.getElem?_cons_succ] at hk
            obtain ⟨hs', ht'⟩ := IH.1 k' pr hk
            refine ⟨?_, ht'⟩
            rw [hs']
            push_cast
            ring
      · intro k pr pr' hk1 hk0
        cases k with
        | zero =>
            cases rest with
            | nil =>
              rw [List.getElem?_cons_succ] at hk1
              simp at hk1
            | cons y rest' =>
              obtain ⟨y1, y2⟩ := y
              rw [List.getElem?_cons_zero] at hk0
              cases hk0
              rw [List.getElem?_cons_succ, List.getElem?_cons_zero] at hk1
              cases hk1
              obtain ⟨hseq2, t2, hp2, htn2, hprev2, hrec2⟩ :=
                chainWalk_cons_ok env (i + 1) r.payload.id r.payload.rotationHash t y1 y2
                  rest' hrec
              have hne : y1.payload.sequenceNumber ≠ 0 := by
                rw [hseq2]
                exact_mod_cast Nat.succ_ne_zero i
              obtain ⟨hpv, hlt2, hbl⟩ := hprev2 hne
              refine ⟨hpv, ?_, hbl⟩
              intro ta tb hta htb
              rw [hp2] at hta
              cases hta
              rw [hp] at htb
              cases htb
              exact hlt2
        | succ k' =>
            rw [List.getElem?_cons_succ] at hk1 hk0
            exact IH.2 k' pr pr' hk1 hk0

theorem chainStage_ok_of_mem (env : Env) : ∀ gs, chainStage env gs = .ok () →
    ∀ g ∈ gs, chainWalk env 0 "" "" 0 g.2 = .ok () := by
  intro gs
  induction gs with
  | nil => intro _ g hg; cases hg
  | cons x rest ih =>
      intro h g hg
      unfold chainStage at h
      rcases hx : chainWalk env 0 "" "" 0 x.2 with e | u
      · rw [hx] at h; cases h
      · rw [hx] at h
        cases hg with
        | head => exact hx
        | tail _ hmem => exact ih h g hmem

theorem chainWalk_err_chain (env : Env) :
    ∀ rs (i : Nat) (lid lrot : String) (lt : Int) e,
    chainWalk env i lid lrot lt rs = .error e → isChainErr e = true := by
  intro rs
  induction rs with
  | nil => intro i lid lrot lt e h; cases h
  | cons x rest ih =>
      intro i lid lrot lt e h
      obtain ⟨r, pj⟩ := x
      unfold chainWalk at h
      by_cases h1 : r.payload.sequenceNumber ≠ (i : Int)
      · rw [if_pos h1] at h
        injection h with h
        subst h
        rfl
      · rw [if_neg h1] at h
        rcases hp : env.parseTime r.payload.createdAt with _ | t
        · rw [hp] at h
          injection h with h
          subst h
          rfl
        · rw [hp] at h
          by_cases h2 : env.now ≤ t
          · simp [h2] at h
            subst h
            rfl
          · by_cases h3 : r.payload.sequenceNumber ≠ 0
            · rcases hprev : r.payload.previous with _ | prev
              · simp [h2, h3, hprev] at h
                subst h
                rfl
              · by_cases h4 : lid ≠ prev
                · simp [h2, h3, hprev, h4] at h
                  subst h
                  rfl
                · by_cases h5 : t ≤ lt
                  · simp [h2, h3, hprev, h4, h5] at h
                    subst h
                    rfl
                  · by_cases h6 : env.blake3 r.payload.publicKey ≠ lrot
                    · simp [h2, h3, hprev, h4, h5, h6] at h
                      subst h
                      rfl
                    · simp only [h2, h3, hprev, h4, h5, h6] at h
                      simp at h
                      exact ih (i + 1) r.payload.id r.payload.rotationHash t e h
            · simp [h2, h3] at h
              exact ih (i + 1) r.payload.id r.payload.rotationHash t e h

theorem chainStage_err_chain (env : Env) : ∀ gs e,
    chainStage env gs = .error e → isChainErr e = true := by
  intro gs
  induction gs with
  | nil => intro e h; cases h
  | cons x rest ih =>
      intro e h
      unfold chainStage at h
      rcases hx : chainWalk env 0 "" "" 0 x.2 with e' | u
      · rw [hx] at h
        injection h with h
        subst h
        exact chainWalk_err_chain env x.2 0 "" "" 0 e' hx
      · rw [hx] at h
        exact ih e h

/-- C3: whenever the miss path proceeds past chain validation, every entry
in every prefix group (walked sorted ascending) has sequenceNumber equal to
its index and a createdAt parsing strictly before now, and for index ≥ 1 the
previous field equals the preceding id, the timestamps strictly increase and
Blake3 of the public key equals the preceding rotationHash; chain validation
only ever fails with one of the named chain errors. -/
theorem chain_validation_postcondition (env : Env)
    (gs : List (String × List (SignedLogEntry × String))) :
    (chainStage env gs = .ok () →
      ∀ g ∈ gs, ∀ (k : Nat) pr, g.2[k]? = some pr →
        (pr.1.payload.sequenceNumber = (k : Int) ∧
         ∃ t, env.parseTime pr.1.payload.createdAt = some t ∧ t < env.now) ∧
        (∀ (k' : Nat) pr', k = k' + 1 → g.2[k']? = some pr' →
          pr.1.payload.previous = some pr'.1.payload.id ∧
          (∀ t t', env.parseTime pr.1.payload.createdAt = some t →
            env.parseTime pr'.1.payload.createdAt = some t' → t' < t) ∧
          env.blake3 pr.1.payload.publicKey = pr'.1.payload.rotationHash)) ∧
    (∀ e, chainStage env gs = .error e → isChainErr e = true) := by
  constructor
  · intro h g hg k pr hk
    have hw := chainStage_ok_of_mem env gs h g hg
    have hs := chainWalk_sound env g.2 0 "" "" 0 hw
    constructor
    · have h1 := hs.1 k pr hk
      simpa using h1
    · intro k' pr' hkk hk'
      subst hkk
      exact hs.2 k' pr pr' hk hk'
  · intro e h
    exact chainStage_err_chain env gs e h

/-- Witness for C3: in the concrete three-entry log accepted by chain
validation, entry 1 points back to entry 0. -/
theorem chain_validation_postcondition_witness :
    logE1.previous = some logE0.id := by
  have h := (chain_validation_postcondition envC1 gsC3).1 rfl
      (HSMIdentity, listC1) (by simp [gsC3]) 1 (⟨logE1, "S1"⟩, "P1") (by simp [listC1])
  exact (h.2 0 (⟨logE0, "S0"⟩, "P0") rfl (by simp [listC1])).1

/-! ## C1: taint propagation -/

/-- Counterexample for C1: a fully valid three-entry chain whose newest entry
(sequence 2) carries taintPrevious = true. The miss-path repopulation inserts
entry 2, skips entry 1, then resets the taint flag from entry 1 (which has
none), so the sequence-0 entry is inserted again: verify returns Ok and the
final cache contains an entry of the same chain with sequenceNumber 0 < 2. -/
theorem taint_counterexample :
    (verify envC1 [] ["a"] valsC1 "SIG" HSMIdentity HSMIdentity "MSG").1 = .ok () ∧
    alookup (verify envC1 [] ["a"] valsC1 "SIG" HSMIdentity HSMIdentity "MSG").2 "ID2" =
      some ⟨logE2, none⟩ ∧
    alookup (verify envC1 [] ["a"] valsC1 "SIG" HSMIdentity HSMIdentity "MSG").2 HSMIdentity =
      some ⟨logE0, some 101⟩ ∧
    logE2.taintPrevious = some true ∧
    logE0.sequenceNumber < logE2.sequenceNumber :=
  ⟨rfl, rfl, rfl, rfl, by decide⟩

theorem populateWalk_preserves_absent (env : Env) :
    ∀ (l : List (SignedLogEntry × String)) (tainted : Bool) (expv : Option Int)
      (cache : List (String × ExpiringEntry)) (k : String),
    alookup cache k = none → k ∉ l.map (fun it => it.1.payload.id) →
    alookup (populateWalk env tainted expv cache l).2 k = none := by
  intro l
  induction l with
  | nil =>
      intro t e c k hc _
      exact hc
  | cons x rest ih =>
      intro t e c k hc hk
      obtain ⟨r, pj⟩ := x
      simp only [List.map_cons, List.mem_cons] at hk
      push_neg at hk
      obtain ⟨hk1, hk2⟩ := hk
      have hc1 : alookup (if t = true then c else ainsert c r.payload.id ⟨r.payload, e⟩) k
          = none := by
        by_cases ht : t = true
        · rw [if_pos ht]; exact hc
        · rw [if_neg ht]
          rw [alookup_ainsert_ne c r.payload.id k ⟨r.payload, e⟩ (fun hh => hk1 hh.symm)]
          exact hc
      unfold populateWalk
      rcases hp : env.parseTime r.payload.createdAt with _ | tt
      · simp only [hp]
        exact hc1
      · simp only [hp]
        by_cases hexp : tt + env.window < env.now
        · rw [if_pos hexp]
          exact hc1
        · rw [if_neg hexp]
          exact ih _ _ _ k hc1 hk2

theorem populateWalk_tainted_head (env : Env) (e1 : Option Int)
    (c1 : List (String × ExpiringEntry)) (q : SignedLogEntry) (qj : String)
    (l2 : List (SignedLogEntry × String))
    (habs : alookup c1 q.payload.id = none)
    (hnotin : q.payload.id ∉ l2.map (fun it => it.1.payload.id)) :
    alookup (populateWalk env true e1 c1 ((q, qj) :: l2)).2 q.payload.id = none := by
  unfold populateWalk
  rcases hp2 : env.parseTime q.payload.createdAt with _ | t2
  · simp only [hp2]
    exact habs
  · simp only [hp2]
    by_cases hexp2 : t2 + env.window < env.now
    · rw [if_pos hexp2]
      exact habs
    · rw [if_neg hexp2]
      exact populateWalk_preserves_absent env l2 _ _ _ _ habs hnotin

/-- C1 amended: the taint flag suppresses exactly the immediately preceding
(next older) entry of the reverse walk. If the walk reaches an entry with
taintPrevious = true, the next older entry is never inserted, so — with
distinct entry ids — its id is absent from the final cache. Entries older
than that may be cached again, as the counterexample shows. -/
theorem taint_suppresses_immediate_predecessor (env : Env)
    (tainted : Bool) (expv : Option Int) (cache : List (String × ExpiringEntry))
    (ek ekm1 : SignedLogEntry × String) (l2 : List (SignedLogEntry × String))
    (htaint : ek.1.payload.taintPrevious = some true)
    (hne : ekm1.1.payload.id ≠ ek.1.payload.id)
    (hnotin : ekm1.1.payload.id ∉ l2.map (fun it => it.1.payload.id))
    (habs : alookup cache ekm1.1.payload.id = none) :
    alookup (populateWalk env tainted expv cache (ek :: ekm1 :: l2)).2
      ekm1.1.payload.id = none := by
  obtain ⟨r, pj⟩ := ek
  obtain ⟨q, qj⟩ := ekm1
  simp only at htaint hne hnotin habs ⊢
  have hc1 : alookup (if tainted = true then cache else
      ainsert cache r.payload.id ⟨r.payload, expv⟩) q.payload.id = none := by
    by_cases ht : tainted = true
    · rw [if_pos ht]; exact habs
    · rw [if_neg ht]
      rw [alookup_ainsert_ne cache r.payload.id q.payload.id ⟨r.payload, expv⟩
        (fun hh => hne hh.symm)]
      exact habs
  unfold populateWalk
  simp only [htaint, Option.getD_some]
  rcases hp : env.parseTime r.payload.createdAt with _ | t
  · simp only [hp]
    exact hc1
  · simp only [hp]
    by_cases hexp : t + env.window < env.now
    · rw [if_pos hexp]
      exact hc1
    · rw [if_neg hexp]
      exact populateWalk_tainted_head env _ _ q qj l2 hc1 hnotin

/-- Witness for C1 amended: in the concrete tainted walk, entry 1 is absent
from the repopulated cache. -/
theorem taint_suppresses_witness :
    alookup (populateWalk envC1 false none []
      [(⟨logE2, "S2"⟩, "P2"), (⟨logE1, "S1"⟩, "P1"), (⟨logE0, "S0"⟩, "P0")]).2 "ID1" =
      none :=
  taint_suppresses_immediate_predecessor envC1 false none []
    (⟨logE2, "S2"⟩, "P2") (⟨logE1, "S1"⟩, "P1") [(⟨logE0, "S0"⟩, "P0")]
    rfl (by decide) (by decide) rfl

/-! ## C2: cache clearing on validation failure -/

theorem chainWalk_parse_all (env : Env) : ∀ rs (i : Nat) (lid lrot : String) (lt : Int),
    chainWalk env i lid lrot lt rs = .ok () →
    ∀ it ∈ rs, ∃ t, env.parseTime it.1.payload.createdAt = some t := by
  intro rs
  induction rs with
  | nil => intro _ _ _ _ _ it hit; cases hit
  | cons x rest ih =>
      intro i lid lrot lt h it hit
      obtain ⟨r, pj⟩ := x
      obtain ⟨hseq, t, hp, htn, hprev, hrec⟩ := chainWalk_cons_ok env i lid lrot lt r pj rest h
      cases hit with
      | head => exact ⟨t, hp⟩
      | tail _ hmem => exact ih (i + 1) _ _ t hrec it hmem

theorem populateWalk_ok_of_parse (env : Env) :
    ∀ (l : List (SignedLogEntry × String)) (tainted : Bool) (expv : Option Int)
      (cache : List (String × ExpiringEntry)),
    (∀ it ∈ l, ∃ t, env.parseTime it.1.payload.createdAt = some t) →
    (populateWalk env tainted expv cache l).1 = .ok () := by
  intro l
  induction l with
  | nil => intro _ _ _ _; rfl
  | cons x rest ih =>
      intro tainted expv cache hall
      obtain ⟨r, pj⟩ := x
      obtain ⟨t, hp⟩ := hall (r, pj) (List.mem_cons_self _ _)
      unfold populateWalk
      simp only [hp]
      by_cases hexp : t + env.window < env.now
      · rw [if_pos hexp]
      · rw [if_neg hexp]
        exact ih _ _ _ (fun it hmem => hall it (List.mem_cons_of_mem _ hmem))

theorem alookup_mem {α : Type} : ∀ (m : List (String × α)) (k : String) (v : α),
    alookup m k = some v → (k, v) ∈ m := by
  intro m
  induction m with
  | nil => intro k v h; cases h
  | cons x rest ih =>
      intro k v h
      unfold alookup at h
      by_cases hk : x.1 = k
      · rw [if_pos hk] at h
        cases h
        subst hk
        simp
      · rw [if_neg hk] at h
        exact List.mem_cons_of_mem _ (ih k v h)

/-- C2: on a cache miss the entire cache is cleared before any write, so
whenever a parse, signature or chain validation failure aborts the miss
path, the final cache is empty — it holds no entry written by the failed
invocation. -/
theorem miss_validation_failure_leaves_empty_cache (env : Env)
    (cache0 : List (String × ExpiringEntry)) (keys : List String)
    (values : List (Option String)) (s hid gen m : String) (e : VErr)
    (hmiss : alookup cache0 gen = none)
    (herr : (verify env cache0 keys values s hid gen m).1 = .error e)
    (hval : isValidationErr e = true) :
    (verify env cache0 keys values s hid gen m).2 = [] := by
  by_cases hk : keys.isEmpty = true
  · have hveq : verify env cache0 keys values s hid gen m = (.error .noKeys, []) := by
      simp only [verify, hmiss]
      rw [if_pos hk]
    rw [hveq]
  · rcases hp : parseValues env values with e' | rs
    · have hveq : verify env cache0 keys values s hid gen m = (.error e', []) := by
        simp only [verify, hmiss, hp]
        rw [if_neg hk]
      rw [hveq]
    · rcases hd : dataStage env (buildGroups rs) with e' | u
      · have hveq : verify env cache0 keys values s hid gen m = (.error e', []) := by
          simp only [verify, hmiss, hp, hd]
          rw [if_neg hk]
        rw [hveq]
      · rcases hc : chainStage env (buildGroups rs) with e' | u'
        · have hveq : verify env cache0 keys values s hid gen m = (.error e', []) := by
            simp only [verify, hmiss, hp, hd, hc]
            rw [if_neg hk]
          rw [hveq]
        · rcases hg : alookup (buildGroups rs) HSMIdentity with _ | records
          · have hveq : verify env cache0 keys values s hid gen m =
                (.error .identityNotFound, []) := by
              simp only [verify, hmiss, hp, hd, hc, hg]
              rw [if_neg hk]
            rw [hveq]
          · have hparse : ∀ it ∈ records.reverse,
                ∃ t, env.parseTime it.1.payload.createdAt = some t := by
              intro it hmem
              rw [List.mem_reverse] at hmem
              have hmemg : (HSMIdentity, records) ∈ buildGroups rs :=
                alookup_mem (buildGroups rs) HSMIdentity records hg
              have hwalk := chainStage_ok_of_mem env (buildGroups rs) hc
                (HSMIdentity, records) hmemg
              exact chainWalk_parse_all env records 0 "" "" 0 hwalk it hmem
            have hpop := populateWalk_ok_of_parse env records.reverse false none [] hparse
            rcases hw : populateWalk env false none [] records.reverse with ⟨res, cache1⟩
            rw [hw] at hpop
            rcases res with e'' | u''
            · cases hpop
            · rcases hl : alookup cache1 gen with _ | ce
              · have hveq : verify env cache0 keys values s hid gen m =
                    (.error .cantFindKey, cache1) := by
                  simp only [verify, hmiss, hp, hd, hc, hg, hw, hl]
                  rw [if_neg hk]
                rw [hveq] at herr
                injection herr with herr
                subst herr
                cases hval
              · have hveq : verify env cache0 keys values s hid gen m =
                    (verifyWithEntry env ce s hid m, cache1) := by
                  simp only [verify, hmiss, hp, hd, hc, hg, hw, hl]
                  rw [if_neg hk]
                rw [hveq] at herr
                have hcl := verifyWithEntry_err_not_validation env ce s hid m e herr
                rw [hval] at hcl
                cases hcl

/-- Witness for C2: a miss over a value whose payload extraction fails
empties a previously non-empty cache. -/
theorem miss_validation_failure_witness :
    (verify envW cacheW2 ["k"] [some "bad"] "S" "H" "GEN" "M").2 = [] :=
  miss_validation_failure_leaves_empty_cache envW cacheW2 ["k"] [some "bad"]
    "S" "H" "GEN" "M" .subJson rfl rfl rfl

end BetterAuth
